import Mathlib

/-!
Verification of the 3d-gravity repository (CCernusca/3d-gravity).

This file gives a shallow embedding in Lean 4 of the parts of the source
relevant to the specification's claims:

* scripts/physics.py : Body, calculate_gravity, update_physics (with its
  distance-based trail bookkeeping), Body.update_position;
* scripts/camera.py  : the orientation frame (rotate_yaw / rotate_pitch /
  rotate_roll), look_at, project_3d_to_2d, check_hover, and the distance
  correction block of handle_planetary_input;
* scripts/system_loader.py : save_solar_system / load_solar_system.

Python floats are embedded as real numbers; numpy vectors as a Vec3 record
of reals.  For the projection pipeline, whose contract is about non-finite
values, floats are embedded as reals extended with explicit pinf / ninf /
nan values with IEEE-style propagation through the add / mul operations that
the pipeline uses (real arithmetic itself is the usual no-overflow
idealization).
-/

set_option maxHeartbeats 1000000

namespace Gravity3D

open Classical

noncomputable section

/-- Embedding of a numpy 3-vector of floats as a record of reals. -/
structure Vec3 where
  x : ℝ
  y : ℝ
  z : ℝ

instance : Zero Vec3 := ⟨⟨0, 0, 0⟩⟩

instance : Add Vec3 := ⟨fun a b => ⟨a.x + b.x, a.y + b.y, a.z + b.z⟩⟩

instance : Sub Vec3 := ⟨fun a b => ⟨a.x - b.x, a.y - b.y, a.z - b.z⟩⟩

instance : Neg Vec3 := ⟨fun a => ⟨-a.x, -a.y, -a.z⟩⟩

/-- Scalar multiplication, the embedding of numpy scalar * vector. -/
instance : SMul ℝ Vec3 := ⟨fun c v => ⟨c * v.x, c * v.y, c * v.z⟩⟩

/-- Division of a numpy vector by a scalar, componentwise. -/
instance : HDiv Vec3 ℝ Vec3 := ⟨fun v c => ⟨v.x / c, v.y / c, v.z / c⟩⟩

/-- Embedding of numpy dot product np.dot. -/
def Vec3.dot (a b : Vec3) : ℝ := a.x * b.x + a.y * b.y + a.z * b.z

/-- Embedding of numpy cross product np.cross. -/
def Vec3.cross (a b : Vec3) : Vec3 :=
  ⟨a.y * b.z - a.z * b.y, a.z * b.x - a.x * b.z, a.x * b.y - a.y * b.x⟩

/-- Embedding of np.linalg.norm: the square root of the sum of squares. -/
def Vec3.norm (v : Vec3) : ℝ := Real.sqrt (Vec3.dot v v)

/-- Gravitational constant G = 6.67430e-11 from scripts/physics.py. -/
def G : ℝ := 6.67430e-11

/-- Time step DT = 86400 (one day in seconds) from scripts/physics.py. -/
def DT : ℝ := 86400

/-- Embedding of the Body class of scripts/physics.py: the attributes set by
Body.__init__ (the name is kept; pygame color tuples are integer triples). -/
structure Body where
  name : String
  mass : ℝ
  position : Vec3
  velocity : Vec3
  radius : ℝ
  color : ℤ × ℤ × ℤ
  inclination : ℝ
  trail : List Vec3
  max_trail_length : ℕ
  trail_distance_threshold : ℝ

instance : Inhabited Body :=
  ⟨{ name := "", mass := 1, position := 0, velocity := 0, radius := 1,
     color := (0, 0, 0), inclination := 0, trail := [],
     max_trail_length := 100, trail_distance_threshold := 5e9 }⟩

/-- Rotation of the y and z components around the x axis by angle i, the body
of Body._apply_inclination in scripts/physics.py. -/
def rotateIncl (i : ℝ) (v : Vec3) : Vec3 :=
  ⟨v.x, v.y * Real.cos i - v.z * Real.sin i, v.y * Real.sin i + v.z * Real.cos i⟩

/-- Embedding of Body.__init__: records the fields, sets trail = [],
max_trail_length = 100 and trail_distance_threshold = 5e9, and applies the
inclination rotation to position and velocity when inclination is nonzero
(Body._apply_inclination). -/
def mkBody (name : String) (mass : ℝ) (position velocity : Vec3) (radius : ℝ)
    (color : ℤ × ℤ × ℤ) (inclination : ℝ) : Body :=
  { name := name, mass := mass,
    position := if inclination ≠ 0 then rotateIncl inclination position else position,
    velocity := if inclination ≠ 0 then rotateIncl inclination velocity else velocity,
    radius := radius, color := color, inclination := inclination,
    trail := [], max_trail_length := 100, trail_distance_threshold := 5e9 }

/-- Embedding of calculate_gravity from scripts/physics.py. -/
def calculate_gravity (body1 body2 : Body) : Vec3 :=
  let r_vec := body2.position - body1.position
  let distance := r_vec.norm
  if distance = 0 then 0
  else
    let force_mag := G * body1.mass * body2.mass / distance ^ 2
    let force_dir := r_vec / distance
    force_mag • force_dir

/-- Embedding of the while loop of the trail block of update_physics
(scripts/physics.py lines 111-116): while remaining_distance is at least the
threshold, append an intermediate point one threshold along dir, advance
last_point and decrease remaining_distance.  The loop is run on a fuel
argument; since the threshold is positive and each iteration subtracts it
from the remaining distance, the Python loop performs exactly
floor(distance / threshold) iterations, which is the fuel update_physics
passes in. -/
def trailLoop : ℕ → List Vec3 → Vec3 → Vec3 → ℝ → ℝ → List Vec3 × Vec3 × ℝ
  | 0, trail, last_point, _, _, remaining => (trail, last_point, remaining)
  | n + 1, trail, last_point, dir, thr, remaining =>
    if thr ≤ remaining then
      trailLoop n (trail ++ [last_point + thr • dir]) (last_point + thr • dir) dir thr
        (remaining - thr)
    else (trail, last_point, remaining)

/-- Embedding of the distance-based trail generation block of update_physics
(scripts/physics.py lines 97-120): append the first point when the trail is
empty; otherwise append threshold-spaced intermediate points and the final
position when the body moved at least the threshold since the last stored
point, and leave the trail unchanged otherwise. -/
def updateTrail (thr : ℝ) (trail : List Vec3) (pos : Vec3) : List Vec3 :=
  match trail.getLast? with
  | none => trail ++ [pos]
  | some last_point =>
    let distance := (pos - last_point).norm
    if thr ≤ distance then
      let dir := (pos - last_point) / distance
      let r := trailLoop ⌊distance / thr⌋₊ trail last_point dir thr distance
      if 0 < r.2.2 then r.1 ++ [pos] else r.1
    else trail

/-- Embedding of the trail truncation loop of update_physics
(scripts/physics.py lines 122-124): while the trail is longer than
max_trail_length, pop the front element — i.e. drop length - max_trail_length
elements from the front. -/
def trimTrail (maxLen : ℕ) (trail : List Vec3) : List Vec3 :=
  trail.drop (trail.length - maxLen)

/-- Pairing of each body with its index in the list, starting from a given
index. -/
def enumFrom : ℕ → List Body → List (ℕ × Body)
  | _, [] => []
  | i, b :: bs => (i, b) :: enumFrom (i + 1) bs

/-- Pairing of each body with its index in the list. -/
def enumBodies (bodies : List Body) : List (ℕ × Body) := enumFrom 0 bodies

/-- Net force accumulation of update_physics (scripts/physics.py lines
82-88): fold over the (index, body) pairs, skipping the entry whose index is
the body's own (Python compares object identity, which for a list of
distinct Body objects is position in the list). -/
def netForce (body : Body) (others : List (ℕ × Body)) (i : ℕ) : Vec3 :=
  others.foldl (fun acc jo => if jo.1 = i then acc else acc + calculate_gravity body jo.2) 0

/-- The per-body block of the update_physics loop (scripts/physics.py lines
82-124) at index i of the current body list: sum pairwise gravity, divide by
the mass, advance velocity then position by the effective time step (numpy
acceleration * effective_dt is scalar multiplication), then update and trim
the trail. -/
def updateOne (time_multiplier : ℝ) (bodies : List Body) (i : ℕ) : Body :=
  let body := bodies.getD i default
  let effective_dt := DT * time_multiplier
  let net_force := netForce body (enumBodies bodies) i
  let acceleration := net_force / body.mass
  let velocity := body.velocity + effective_dt • acceleration
  let position := body.position + effective_dt • velocity
  let trail := trimTrail body.max_trail_length
    (updateTrail body.trail_distance_threshold body.trail position)
  { body with velocity := velocity, position := position, trail := trail }

/-- Embedding of update_physics (scripts/physics.py lines 78-124).  The
Python loop mutates the bodies one after the other in list order, so the
update of body i reads the already-updated states of bodies 0..i-1; this is
the left fold over indices, replacing one list entry at a time. -/
def update_physics (bodies : List Body) (time_multiplier : ℝ) : List Body :=
  (List.range bodies.length).foldl (fun l i => l.set i (updateOne time_multiplier l i)) bodies

/-- n repetitions of update_physics with a fixed time multiplier. -/
def physicsSteps (time_multiplier : ℝ) (n : ℕ) (bodies : List Body) : List Body :=
  (fun l => update_physics l time_multiplier)^[n] bodies

/-- Total momentum: the sum of mass * velocity over the bodies. -/
def totalMomentum (bodies : List Body) : Vec3 :=
  bodies.foldl (fun acc b => acc + b.mass • b.velocity) 0

/-- Lookup of the attribute self.max_trail read by Body.update_position
(scripts/physics.py line 54).  Body.__init__ sets max_trail_length (line 23)
but nothing in the repository ever sets max_trail, so the lookup fails:
Python raises AttributeError, modeled as none. -/
def Body.max_trail (_ : Body) : Option ℕ := none

/-- Embedding of Body.update_position (scripts/physics.py lines 48-55):
advance velocity and position, append the new position to the trail, then
compare the trail length against self.max_trail — an attribute that was
never set, so the comparison raises AttributeError (result none). -/
def Body.update_position (b : Body) (acceleration : Vec3) : Option Body :=
  let velocity := b.velocity + DT • acceleration
  let position := b.position + DT • velocity
  let trail := b.trail ++ [position]
  match b.max_trail with
  | none => none
  | some m =>
    some { b with velocity := velocity, position := position,
                  trail := if m < trail.length then trail.drop 1 else trail }

/-- The invariant of claim C3 for one body: the trail holds at most
max_trail_length points and consecutive stored points are at most the
distance threshold apart. -/
def TrailOK (b : Body) : Prop :=
  b.trail.length ≤ b.max_trail_length ∧
  b.trail.Chain' (fun p q => (q - p).norm ≤ b.trail_distance_threshold)

/-- Witness body for C1 at the origin with mass 2. -/
def c1A : Body :=
  { name := "A", mass := 2, position := ⟨0, 0, 0⟩, velocity := 0, radius := 1,
    color := (255, 255, 255), inclination := 0, trail := [],
    max_trail_length := 100, trail_distance_threshold := 5e9 }

/-- Witness body for C1 at (3, 4, 0) with mass 3. -/
def c1B : Body :=
  { name := "B", mass := 3, position := ⟨3, 4, 0⟩, velocity := 0, radius := 1,
    color := (255, 255, 255), inclination := 0, trail := [],
    max_trail_length := 100, trail_distance_threshold := 5e9 }

/-- Counterexample body for C2: unit mass at the origin, at rest. -/
def cexA : Body :=
  { name := "A", mass := 1, position := ⟨0, 0, 0⟩, velocity := 0, radius := 1,
    color := (255, 255, 255), inclination := 0, trail := [],
    max_trail_length := 100, trail_distance_threshold := 5e9 }

/-- Counterexample body for C2: unit mass at (1, 0, 0), at rest. -/
def cexB : Body :=
  { name := "B", mass := 1, position := ⟨1, 0, 0⟩, velocity := 0, radius := 1,
    color := (255, 255, 255), inclination := 0, trail := [],
    max_trail_length := 100, trail_distance_threshold := 5e9 }

/-- Concrete body used to exhibit the AttributeError of Body.update_position
for claim C4. -/
def c4body : Body :=
  { name := "Sun", mass := 1, position := ⟨0, 0, 0⟩, velocity := 0, radius := 1,
    color := (255, 255, 0), inclination := 0, trail := [],
    max_trail_length := 100, trail_distance_threshold := 5e9 }

/-- Camera orientation state of scripts/camera.py: the position plus the
forward / up / right orientation vectors.  The movement and zoom speed
scalars play no role in the claims under verification and are omitted. -/
structure Camera where
  position : Vec3
  forward : Vec3
  up : Vec3
  right : Vec3

/-- The world up vector np.array([0, 1, 0]) used by the camera module. -/
def world_up : Vec3 := ⟨0, 1, 0⟩

/-- Embedding of _rotate_vector_around_axis (scripts/camera.py lines
417-426): Rodrigues' rotation formula with the axis assumed unit by the
callers. -/
def rotate_vector_around_axis (vector axis : Vec3) (angle : ℝ) : Vec3 :=
  Real.cos angle • vector + Real.sin angle • Vec3.cross axis vector
    + (Vec3.dot axis vector * (1 - Real.cos angle)) • axis

/-- Embedding of Camera.rotate_yaw (scripts/camera.py lines 76-91): rotate
forward and right around the world up axis, renormalize each, then
recompute up as forward x right and normalize it. -/
def rotate_yaw (cam : Camera) (angle : ℝ) : Camera :=
  let forward1 := rotate_vector_around_axis cam.forward world_up angle
  let forward := forward1 / forward1.norm
  let right1 := rotate_vector_around_axis cam.right world_up angle
  let right := right1 / right1.norm
  let up1 := Vec3.cross forward right
  let up := up1 / up1.norm
  { cam with forward := forward, right := right, up := up }

/-- Embedding of Camera.rotate_pitch (scripts/camera.py lines 93-108):
rotate forward and up around the normalized right axis, renormalize each,
then recompute right as up x forward and normalize it. -/
def rotate_pitch (cam : Camera) (angle : ℝ) : Camera :=
  let right_normalized := cam.right / cam.right.norm
  let forward1 := rotate_vector_around_axis cam.forward right_normalized angle
  let forward := forward1 / forward1.norm
  let up1 := rotate_vector_around_axis cam.up right_normalized angle
  let up := up1 / up1.norm
  let right2 := Vec3.cross up forward
  let right := right2 / right2.norm
  { cam with forward := forward, up := up, right := right }

/-- Embedding of Camera.rotate_roll (scripts/camera.py lines 111-125):
rotate right and up around the normalized forward axis, renormalize each,
then recompute forward as right x up and normalize it. -/
def rotate_roll (cam : Camera) (angle : ℝ) : Camera :=
  let forward_normalized := cam.forward / cam.forward.norm
  let right1 := rotate_vector_around_axis cam.right forward_normalized angle
  let right := right1 / right1.norm
  let up1 := rotate_vector_around_axis cam.up forward_normalized angle
  let up := up1 / up1.norm
  let forward2 := Vec3.cross right up
  let forward := forward2 / forward2.norm
  { cam with right := right, up := up, forward := forward }

/-- A rotation call of the camera: yaw, pitch or roll by a given angle. -/
inductive RotOp where
  | yaw : ℝ → RotOp
  | pitch : ℝ → RotOp
  | roll : ℝ → RotOp

/-- Application of one rotation call to the camera. -/
def applyRot (cam : Camera) : RotOp → Camera
  | RotOp.yaw a => rotate_yaw cam a
  | RotOp.pitch a => rotate_pitch cam a
  | RotOp.roll a => rotate_roll cam a

/-- Application of a sequence of rotation calls, in order. -/
def applyRots (cam : Camera) (ops : List RotOp) : Camera := ops.foldl applyRot cam

/-- The orthonormal-frame property of claim C5: forward, right and up have
norm one and are pairwise orthogonal. -/
def OrthFrame (cam : Camera) : Prop :=
  cam.forward.norm = 1 ∧ cam.right.norm = 1 ∧ cam.up.norm = 1 ∧
  cam.forward.dot cam.right = 0 ∧ cam.forward.dot cam.up = 0 ∧
  cam.right.dot cam.up = 0

/-- Embedding of Camera.look_at (scripts/camera.py lines 221-237): when the
direction to the target is nonzero, set forward to its normalization, right
to the normalized cross of world up with forward (with the fixed fallback
when that cross is zero), and up to the normalized cross of forward with
right; otherwise do nothing. -/
def look_at (cam : Camera) (target : Vec3) : Camera :=
  let direction := target - cam.position
  if 0 < direction.norm then
    let forward := direction / direction.norm
    let right0 := Vec3.cross world_up forward
    let right := if 0 < right0.norm then right0 / right0.norm else ⟨1, 0, 0⟩
    let up0 := Vec3.cross forward right
    let up := up0 / up0.norm
    { cam with forward := forward, right := right, up := up }
  else cam

/-- Embedding of the distance-correction block (SECTION 6, scripts/camera.py
lines 705-724) of handle_planetary_input, as a function of the camera
position, the planetary body position and its radius: when the distance to
the body is positive and its error against the target distance
radius + 1e9 exceeds one percent of the target, move the camera 10 percent
of the error along the anchor direction; otherwise leave the position
unchanged. -/
def planetary_distance_correction (camPos bodyPos : Vec3) (radius : ℝ) : Vec3 :=
  let new_anchor_vector := bodyPos - camPos
  let new_distance := new_anchor_vector.norm
  if 0 < new_distance then
    let target_distance := radius + 1e9
    let distance_error := new_distance - target_distance
    if target_distance * 0.01 < |distance_error| then
      let correction_amount := distance_error * 0.1
      let new_anchor_normalized := new_anchor_vector / new_distance
      bodyPos - (new_distance - correction_amount) • new_anchor_normalized
    else camPos
  else camPos

/-- Witness camera for C5: the default frame of Camera.__init__ (position
(0, 0, -5e11), forward +Z, up +Y, right +X). -/
def camC5 : Camera :=
  { position := ⟨0, 0, -5e11⟩, forward := ⟨0, 0, 1⟩, up := ⟨0, 1, 0⟩, right := ⟨1, 0, 0⟩ }

/-- One entry of the bodies list of the JSON scene file, with the fields
written by save_solar_system; the inclination field is stored in degrees. -/
structure BodyData where
  name : String
  mass : ℝ
  position : Vec3
  velocity : Vec3
  radius : ℝ
  color : ℤ × ℤ × ℤ
  inclination : ℝ

/-- Embedding of save_solar_system (scripts/system_loader.py lines 118-143):
each body is written with its current position and velocity, its radius
divided by the distance scale 1e8, its color, and np.degrees of its
inclination; the written config always stores distance_scale = 1e8. -/
def save_solar_system (bodies : List Body) : List BodyData :=
  bodies.map fun b =>
    { name := b.name, mass := b.mass, position := b.position, velocity := b.velocity,
      radius := b.radius / 1e8, color := b.color,
      inclination := b.inclination * 180 / Real.pi }

/-- Embedding of load_solar_system (scripts/system_loader.py lines 38-90) on
an already-parsed bodies list (file I/O, color parsing and the
default-scene fallbacks are outside the round-trip claim): each entry
becomes a Body via Body.__init__ with the radius scaled by the stored
distance_scale 1e8 and the inclination converted by np.radians; Body.__init__
then applies the inclination rotation to the loaded position and velocity. -/
def load_solar_system (data : List BodyData) : List Body :=
  data.map fun d =>
    mkBody d.name d.mass d.position d.velocity (d.radius * 1e8) d.color
      (d.inclination * Real.pi / 180)

/-- Counterexample body for C9, built by Body.__init__ from raw position
(0, 1, 0) with inclination pi/2; its stored position is (0, 0, 1). -/
def c9body : Body := mkBody "P" 1 ⟨0, 1, 0⟩ 0 1 (0, 0, 0) (Real.pi / 2)

/-- Embedding of a Python float for the projection pipeline: a finite real
value or one of the IEEE non-finite values +inf, -inf, nan.  Finite
arithmetic is the usual no-overflow real idealization; the non-finite
values combine under addition and multiplication exactly as in IEEE 754. -/
inductive FF where
  | fin : ℝ → FF
  | pinf : FF
  | ninf : FF
  | nan : FF

/-- Embedding of np.isfinite on one value. -/
def FF.isFinite : FF → Bool
  | FF.fin _ => true
  | _ => false

/-- IEEE negation. -/
def FF.neg : FF → FF
  | FF.fin x => FF.fin (-x)
  | FF.pinf => FF.ninf
  | FF.ninf => FF.pinf
  | FF.nan => FF.nan

/-- IEEE addition on the embedded floats: nan propagates, opposite
infinities give nan, an infinity absorbs finite values. -/
def FF.add : FF → FF → FF
  | FF.fin x, FF.fin y => FF.fin (x + y)
  | FF.fin _, FF.pinf => FF.pinf
  | FF.fin _, FF.ninf => FF.ninf
  | FF.fin _, FF.nan => FF.nan
  | FF.pinf, FF.fin _ => FF.pinf
  | FF.pinf, FF.pinf => FF.pinf
  | FF.pinf, FF.ninf => FF.nan
  | FF.pinf, FF.nan => FF.nan
  | FF.ninf, FF.fin _ => FF.ninf
  | FF.ninf, FF.pinf => FF.nan
  | FF.ninf, FF.ninf => FF.ninf
  | FF.ninf, FF.nan => FF.nan
  | FF.nan, _ => FF.nan

/-- IEEE subtraction: addition of the negation. -/
def FF.sub (a b : FF) : FF := FF.add a (FF.neg b)

/-- IEEE multiplication on the embedded floats: nan propagates, an infinity
times a finite value follows the sign of that value (nan at zero), and
infinities multiply by the rule of signs. -/
noncomputable def FF.mul : FF → FF → FF
  | FF.fin x, FF.fin y => FF.fin (x * y)
  | FF.fin x, FF.pinf => if 0 < x then FF.pinf else if x < 0 then FF.ninf else FF.nan
  | FF.fin x, FF.ninf => if 0 < x then FF.ninf else if x < 0 then FF.pinf else FF.nan
  | FF.fin _, FF.nan => FF.nan
  | FF.pinf, FF.fin y => if 0 < y then FF.pinf else if y < 0 then FF.ninf else FF.nan
  | FF.pinf, FF.pinf => FF.pinf
  | FF.pinf, FF.ninf => FF.ninf
  | FF.pinf, FF.nan => FF.nan
  | FF.ninf, FF.fin y => if 0 < y then FF.ninf else if y < 0 then FF.pinf else FF.nan
  | FF.ninf, FF.pinf => FF.ninf
  | FF.ninf, FF.ninf => FF.pinf
  | FF.ninf, FF.nan => FF.nan
  | FF.nan, _ => FF.nan

/-- IEEE comparison a <= b: false whenever nan is involved, -inf below
everything else, +inf above everything else. -/
noncomputable def FF.le : FF → FF → Bool
  | FF.fin x, FF.fin y => decide (x ≤ y)
  | FF.fin _, FF.pinf => true
  | FF.fin _, FF.ninf => false
  | FF.fin _, FF.nan => false
  | FF.pinf, FF.pinf => true
  | FF.pinf, _ => false
  | FF.ninf, FF.nan => false
  | FF.ninf, _ => true
  | FF.nan, _ => false

/-- Division on the embedded floats.  The pipeline divides only a finite
numerator by a finite denominator that is provably at least 1e8 (the
clamped depth), so the remaining cases — whose IEEE results (infinities for
x / 0, zero for x / inf) real division cannot mirror — are collapsed to nan
and are unreachable at the call site. -/
noncomputable def FF.div : FF → FF → FF
  | FF.fin x, FF.fin y => if y = 0 then FF.nan else FF.fin (x / y)
  | _, _ => FF.nan

/-- A float 3-vector of the projection pipeline. -/
structure FVec3 where
  x : FF
  y : FF
  z : FF

/-- All three components are finite. -/
def FVec3.isFinite (v : FVec3) : Bool := v.x.isFinite && v.y.isFinite && v.z.isFinite

/-- Componentwise subtraction. -/
def FVec3.sub (a b : FVec3) : FVec3 := ⟨FF.sub a.x b.x, FF.sub a.y b.y, FF.sub a.z b.z⟩

/-- Embedding of np.dot: the products summed left to right. -/
noncomputable def FVec3.dot (a b : FVec3) : FF :=
  FF.add (FF.add (FF.mul a.x b.x) (FF.mul a.y b.y)) (FF.mul a.z b.z)

/-- Injection of an exact real vector as a finite float vector. -/
def toFVec (v : Vec3) : FVec3 := ⟨FF.fin v.x, FF.fin v.y, FF.fin v.z⟩

/-- Camera state as consumed by the projection: position and the right / up
/ forward axis vectors, any of which a caller may have driven non-finite. -/
structure FCamera where
  position : FVec3
  right : FVec3
  up : FVec3
  forward : FVec3

/-- Python int() on a float: truncation toward zero. -/
noncomputable def trunc (x : ℝ) : ℤ := if 0 ≤ x then ⌊x⌋ else ⌈x⌉

/-- Camera-space coordinates of project_3d_to_2d (scripts/camera.py lines
243-256): dot products of the relative position with right, up and
forward. -/
noncomputable def camCoords (pos_3d : FVec3) (camera : FCamera) : FF × FF × FF :=
  let relative_pos := FVec3.sub pos_3d camera.position
  (FVec3.dot relative_pos camera.right,
   FVec3.dot relative_pos camera.up,
   FVec3.dot relative_pos camera.forward)

/-- The depth clamp of project_3d_to_2d (scripts/camera.py lines 259-260):
when cam_z compares at most 1e8 it is replaced by 1e8.  A nan or +inf depth
fails the comparison and is left in place; a -inf depth compares true and
is clamped to the finite 1e8, as in Python. -/
noncomputable def clampDepth (cam_z : FF) : FF :=
  if FF.le cam_z (FF.fin 1e8) then FF.fin 1e8 else cam_z

/-- Embedding of project_3d_to_2d (scripts/camera.py lines 240-282).  The
value ok none is the sentinel (None, None, None, None); ok some is a
normal return; error () is an uncaught Python exception — int() raises on a
non-finite argument (line 275) before the final finiteness check can run,
a branch proved unreachable in project_ne_error.  The match on the three
checked values is the isfinite test of line 263, the match on the division
result is the isfinite test of line 271, and the final check of line 279 on
the two ints always passes. -/
noncomputable def project_3d_to_2d (pos_3d : FVec3) (camera : FCamera) (width height : ℤ) :
    Except Unit (Option (ℤ × ℤ × ℝ × ℝ)) :=
  match clampDepth (camCoords pos_3d camera).2.2,
        (camCoords pos_3d camera).1, (camCoords pos_3d camera).2.1 with
  | FF.fin cam_z, FF.fin cam_x, FF.fin cam_y =>
    match FF.div (FF.fin 500) (FF.fin cam_z) with
    | FF.fin scale =>
      match FF.add (FF.fin ((width : ℝ) / 2)) (FF.mul (FF.fin cam_x) (FF.fin scale)),
            FF.sub (FF.fin ((height : ℝ) / 2)) (FF.mul (FF.fin cam_y) (FF.fin scale)) with
      | FF.fin sx, FF.fin sy => Except.ok (some (trunc sx, trunc sy, cam_z, scale))
      | _, _ => Except.error ()
    | _ => Except.ok none
  | _, _, _ => Except.ok none

/-- The hover predicate of claim C7 on one body: the projection succeeded,
the projected center lies within the viewport extended by the 100 pixel
margin, and the cursor is within max(10, int(radius * scale)) pixels of the
projected center. -/
noncomputable def hover_hit (mouse_pos : ℤ × ℤ) (camera : FCamera) (width height : ℤ)
    (body : Body) : Bool :=
  match project_3d_to_2d (toFVec body.position) camera width height with
  | Except.ok (some (proj_x, proj_y, _, scale)) =>
    decide ((-100 ≤ proj_x ∧ proj_x ≤ width + 100 ∧ -100 ≤ proj_y ∧ proj_y ≤ height + 100) ∧
      Real.sqrt ((((mouse_pos.1 - proj_x : ℤ) : ℝ)) ^ 2 + (((mouse_pos.2 - proj_y : ℤ) : ℝ)) ^ 2)
        ≤ ((max 10 (trunc (body.radius * scale)) : ℤ) : ℝ))
  | _ => false

/-- Embedding of check_hover (scripts/camera.py lines 285-309): walk the
bodies in list order; an exception from the projection would propagate
(provably unreachable); a failed projection skips the body; otherwise the
body is returned when cam_z > 0, the projected center passes the viewport
margin test and the cursor distance is within the on-screen radius, else
the walk continues. -/
noncomputable def check_hover (mouse_pos : ℤ × ℤ) (bodies : List Body) (camera : FCamera)
    (width height : ℤ) : Except Unit (Option Body) :=
  match bodies with
  | [] => Except.ok none
  | body :: rest =>
    match project_3d_to_2d (toFVec body.position) camera width height with
    | Except.error e => Except.error e
    | Except.ok none => check_hover mouse_pos rest camera width height
    | Except.ok (some (proj_x, proj_y, cam_z, scale)) =>
      if (0 : ℝ) < cam_z ∧ -100 ≤ proj_x ∧ proj_x ≤ width + 100 ∧
          -100 ≤ proj_y ∧ proj_y ≤ height + 100 then
        if Real.sqrt ((((mouse_pos.1 - proj_x : ℤ) : ℝ)) ^ 2
              + (((mouse_pos.2 - proj_y : ℤ) : ℝ)) ^ 2)
            ≤ ((max 10 (trunc (body.radius * scale)) : ℤ) : ℝ) then
          Except.ok (some body)
        else check_hover mouse_pos rest camera width height
      else check_hover mouse_pos rest camera width height

/-- Witness point for C6: the world point (0, 0, 1e9) as a float vector. -/
def c6point : FVec3 := toFVec ⟨0, 0, 1e9⟩

/-- Witness camera for C6: the default finite camera frame at the origin. -/
def c6camera : FCamera :=
  { position := toFVec ⟨0, 0, 0⟩, right := toFVec ⟨1, 0, 0⟩,
    up := toFVec ⟨0, 1, 0⟩, forward := toFVec ⟨0, 0, 1⟩ }

end

/-! Componentwise simp lemmas for the vector operations. -/

@[simp] theorem Vec3.add_x (a b : Vec3) : (a + b).x = a.x + b.x := rfl

@[simp] theorem Vec3.add_y (a b : Vec3) : (a + b).y = a.y + b.y := rfl

@[simp] theorem Vec3.add_z (a b : Vec3) : (a + b).z = a.z + b.z := rfl

@[simp] theorem Vec3.sub_x (a b : Vec3) : (a - b).x = a.x - b.x := rfl

@[simp] theorem Vec3.sub_y (a b : Vec3) : (a - b).y = a.y - b.y := rfl

@[simp] theorem Vec3.sub_z (a b : Vec3) : (a - b).z = a.z - b.z := rfl

@[simp] theorem Vec3.neg_x (a : Vec3) : (-a).x = -a.x := rfl

@[simp] theorem Vec3.neg_y (a : Vec3) : (-a).y = -a.y := rfl

@[simp] theorem Vec3.neg_z (a : Vec3) : (-a).z = -a.z := rfl

@[simp] theorem Vec3.smul_x (c : ℝ) (v : Vec3) : (c • v).x = c * v.x := rfl

@[simp] theorem Vec3.smul_y (c : ℝ) (v : Vec3) : (c • v).y = c * v.y := rfl

@[simp] theorem Vec3.smul_z (c : ℝ) (v : Vec3) : (c • v).z = c * v.z := rfl

@[simp] theorem Vec3.div_x (v : Vec3) (c : ℝ) : (v / c).x = v.x / c := rfl

@[simp] theorem Vec3.div_y (v : Vec3) (c : ℝ) : (v / c).y = v.y / c := rfl

@[simp] theorem Vec3.div_z (v : Vec3) (c : ℝ) : (v / c).z = v.z / c := rfl

@[simp] theorem Vec3.zero_x : (0 : Vec3).x = 0 := rfl

@[simp] theorem Vec3.zero_y : (0 : Vec3).y = 0 := rfl

@[simp] theorem Vec3.zero_z : (0 : Vec3).z = 0 := rfl

theorem Vec3.ext_iff {a b : Vec3} : a = b ↔ a.x = b.x ∧ a.y = b.y ∧ a.z = b.z := by
  constructor
  · rintro rfl; exact ⟨rfl, rfl, rfl⟩
  · rintro ⟨h1, h2, h3⟩; cases a; cases b; simp_all

theorem Vec3.ext' {a b : Vec3} (h1 : a.x = b.x) (h2 : a.y = b.y) (h3 : a.z = b.z) :
    a = b := Vec3.ext_iff.mpr ⟨h1, h2, h3⟩

theorem Vec3.dot_self_nonneg (v : Vec3) : 0 ≤ v.dot v := by
  simp only [Vec3.dot]
  nlinarith [mul_self_nonneg v.x, mul_self_nonneg v.y, mul_self_nonneg v.z]

theorem Vec3.dot_self_eq_zero {v : Vec3} : v.dot v = 0 ↔ v = 0 := by
  constructor
  · intro h
    simp only [Vec3.dot] at h
    have hx : v.x = 0 := by nlinarith [mul_self_nonneg v.x, mul_self_nonneg v.y, mul_self_nonneg v.z]
    have hy : v.y = 0 := by nlinarith [mul_self_nonneg v.x, mul_self_nonneg v.y, mul_self_nonneg v.z]
    have hz : v.z = 0 := by nlinarith [mul_self_nonneg v.x, mul_self_nonneg v.y, mul_self_nonneg v.z]
    exact Vec3.ext' (by simpa using hx) (by simpa using hy) (by simpa using hz)
  · rintro rfl; simp [Vec3.dot]

theorem Vec3.norm_nonneg (v : Vec3) : 0 ≤ v.norm := Real.sqrt_nonneg _

theorem Vec3.norm_eq_zero {v : Vec3} : v.norm = 0 ↔ v = 0 := by
  rw [Vec3.norm, Real.sqrt_eq_zero (Vec3.dot_self_nonneg v), Vec3.dot_self_eq_zero]

theorem Vec3.norm_pos {v : Vec3} (h : v ≠ 0) : 0 < v.norm :=
  lt_of_le_of_ne (Vec3.norm_nonneg v) (fun h0 => h (Vec3.norm_eq_zero.mp h0.symm))

theorem Vec3.norm_smul (c : ℝ) (v : Vec3) : (c • v).norm = |c| * v.norm := by
  simp only [Vec3.norm, Vec3.dot, Vec3.smul_x, Vec3.smul_y, Vec3.smul_z]
  rw [show c * v.x * (c * v.x) + c * v.y * (c * v.y) + c * v.z * (c * v.z)
        = c ^ 2 * (v.x * v.x + v.y * v.y + v.z * v.z) by ring,
      Real.sqrt_mul (sq_nonneg c), Real.sqrt_sq_eq_abs]

theorem Vec3.sdiv_eq_smul (v : Vec3) (c : ℝ) : v / c = (1 / c) • v := by
  refine Vec3.ext' ?_ ?_ ?_ <;> simp <;> ring

theorem Vec3.norm_sdiv_norm {v : Vec3} (h : v ≠ 0) : (v / v.norm).norm = 1 := by
  have hpos := Vec3.norm_pos h
  rw [Vec3.sdiv_eq_smul, Vec3.norm_smul, abs_of_nonneg (le_of_lt (by positivity))]
  field_simp

theorem Vec3.sub_self (v : Vec3) : v - v = 0 := by
  refine Vec3.ext' ?_ ?_ ?_ <;> simp

theorem Vec3.sub_eq_zero {a b : Vec3} : a - b = 0 ↔ a = b := by
  rw [Vec3.ext_iff, Vec3.ext_iff]
  simp only [Vec3.sub_x, Vec3.sub_y, Vec3.sub_z, Vec3.zero_x, Vec3.zero_y, Vec3.zero_z]
  constructor
  · rintro ⟨h1, h2, h3⟩; exact ⟨by linarith, by linarith, by linarith⟩
  · rintro ⟨h1, h2, h3⟩; exact ⟨by linarith, by linarith, by linarith⟩

theorem G_pos : (0 : ℝ) < G := by norm_num [G]

/-- C1: for every pair of bodies, calculate_gravity returns zero when the two
positions coincide, and otherwise returns the vector of magnitude
G * m1 * m2 / d ^ 2 directed along the unit vector from body1's position
toward body2's position. -/
theorem C1_calculate_gravity_spec (b1 b2 : Body)
    (hm1 : 0 ≤ b1.mass) (hm2 : 0 ≤ b2.mass) :
    (b1.position = b2.position → calculate_gravity b1 b2 = 0) ∧
    (b1.position ≠ b2.position →
      calculate_gravity b1 b2 =
        (G * b1.mass * b2.mass / (b2.position - b1.position).norm ^ 2) •
          ((b2.position - b1.position) / (b2.position - b1.position).norm) ∧
      (calculate_gravity b1 b2).norm =
        G * b1.mass * b2.mass / (b2.position - b1.position).norm ^ 2) := by
  constructor
  · intro h
    have hz : (b2.position - b1.position) = 0 := by rw [Vec3.sub_eq_zero]; exact h.symm
    simp [calculate_gravity, hz, Vec3.norm_eq_zero]
  · intro h
    have hz : (b2.position - b1.position) ≠ 0 := by
      rw [Ne, Vec3.sub_eq_zero]; exact fun he => h he.symm
    have hn : (b2.position - b1.position).norm ≠ 0 :=
      fun h0 => hz (Vec3.norm_eq_zero.mp h0)
    constructor
    · simp only [calculate_gravity, if_neg hn]
    · simp only [calculate_gravity, if_neg hn]
      rw [Vec3.norm_smul, Vec3.norm_sdiv_norm hz, mul_one, abs_of_nonneg]
      have h2 : (0:ℝ) ≤ (b2.position - b1.position).norm ^ 2 := sq_nonneg _
      have hG : (0:ℝ) ≤ G := le_of_lt G_pos
      positivity

/-- Witness for C1: the hypotheses hold at the concrete pair c1A, c1B and the
force magnitude is as claimed there. -/
theorem C1_witness :
    (0 ≤ c1A.mass ∧ 0 ≤ c1B.mass ∧ c1A.position ≠ c1B.position) ∧
    (calculate_gravity c1A c1B).norm =
      G * c1A.mass * c1B.mass / ((c1B.position - c1A.position).norm) ^ 2 := by
  have hm1 : (0:ℝ) ≤ c1A.mass := by norm_num [c1A]
  have hm2 : (0:ℝ) ≤ c1B.mass := by norm_num [c1B]
  have hne : c1A.position ≠ c1B.position := by
    simp only [c1A, c1B, Ne, Vec3.ext_iff]
    norm_num
  exact ⟨⟨hm1, hm2, hne⟩, ((C1_calculate_gravity_spec c1A c1B hm1 hm2).2 hne).2⟩

theorem Vec3.neg_zero : -(0 : Vec3) = 0 := by
  refine Vec3.ext' ?_ ?_ ?_ <;> simp

/-- C2 (amended): the pairwise force of calculate_gravity is antisymmetric
for every pair of bodies — the force on the first body from the second is
the negative of the force on the second from the first. -/
theorem C2_calculate_gravity_antisymm (b1 b2 : Body) :
    calculate_gravity b1 b2 = - calculate_gravity b2 b1 := by
  have hnorm : (b1.position - b2.position).norm = (b2.position - b1.position).norm := by
    simp only [Vec3.norm, Vec3.dot, Vec3.sub_x, Vec3.sub_y, Vec3.sub_z]
    ring_nf
  by_cases h : (b2.position - b1.position).norm = 0
  · simp only [calculate_gravity, if_pos h, if_pos (hnorm.trans h)]
    exact Vec3.neg_zero.symm
  · simp only [calculate_gravity, if_neg h, if_neg (fun h0 => h (hnorm ▸ h0))]
    rw [hnorm]
    refine Vec3.ext' ?_ ?_ ?_ <;>
      simp only [Vec3.smul_x, Vec3.smul_y, Vec3.smul_z, Vec3.div_x, Vec3.div_y, Vec3.div_z,
        Vec3.sub_x, Vec3.sub_y, Vec3.sub_z, Vec3.neg_x, Vec3.neg_y, Vec3.neg_z] <;>
      ring

/-- C4: Body.update_position never completes normally — it reads the
attribute max_trail, which Body.__init__ never sets (it sets
max_trail_length), so every call raises AttributeError; evaluated here at a
concrete body and zero acceleration. -/
theorem C4_update_position_raises :
    Body.update_position c4body ⟨0, 0, 0⟩ = none := rfl

theorem Vec3.zero_add (v : Vec3) : 0 + v = v := by
  refine Vec3.ext' ?_ ?_ ?_ <;> simp

theorem Vec3.add_zero (v : Vec3) : v + 0 = v := by
  refine Vec3.ext' ?_ ?_ ?_ <;> simp

theorem cex_gravity_AB : calculate_gravity cexA cexB = ⟨G, 0, 0⟩ := by
  have harg : Vec3.dot (cexB.position - cexA.position) (cexB.position - cexA.position) = 1 := by
    simp [cexA, cexB, Vec3.dot]
  have hnorm : (cexB.position - cexA.position).norm = 1 := by
    rw [Vec3.norm, harg, Real.sqrt_one]
  simp only [calculate_gravity, hnorm, if_neg one_ne_zero]
  refine Vec3.ext' ?_ ?_ ?_ <;>
    simp [cexA, cexB]

theorem cex_velA : (updateOne 1 [cexA, cexB] 0).velocity = ⟨DT * G, 0, 0⟩ := by
  simp only [updateOne, List.getD_cons_zero, enumBodies, enumFrom, netForce, List.foldl,
    cex_gravity_AB]
  refine Vec3.ext' ?_ ?_ ?_ <;> simp [cexA]

theorem cex_posA : (updateOne 1 [cexA, cexB] 0).position = ⟨DT * (DT * G), 0, 0⟩ := by
  simp only [updateOne, List.getD_cons_zero, enumBodies, enumFrom, netForce, List.foldl,
    cex_gravity_AB]
  refine Vec3.ext' ?_ ?_ ?_ <;> simp [cexA]

theorem cex_gravity_BA (A : Body) (hmass : A.mass = 1)
    (hpos : A.position = ⟨DT * (DT * G), 0, 0⟩) :
    calculate_gravity cexB A
      = ⟨G * 1 * 1 / (1 - DT * (DT * G)) ^ 2 * ((DT * (DT * G) - 1) / (1 - DT * (DT * G))),
         0, 0⟩ := by
  have hδ : DT * (DT * G) = 0.49823382528 := by norm_num [DT, G]
  have hd : (A.position - cexB.position).norm = 1 - DT * (DT * G) := by
    rw [hpos]
    have harg : Vec3.dot ((⟨DT * (DT * G), 0, 0⟩ : Vec3) - cexB.position)
        ((⟨DT * (DT * G), 0, 0⟩ : Vec3) - cexB.position)
        = (1 - DT * (DT * G)) * (1 - DT * (DT * G)) := by
      simp [cexB, Vec3.dot]; ring
    rw [Vec3.norm, harg, Real.sqrt_mul_self (by rw [hδ]; norm_num)]
  have hdne : (1 : ℝ) - DT * (DT * G) ≠ 0 := by rw [hδ]; norm_num
  have hmassB : cexB.mass = 1 := rfl
  simp only [calculate_gravity]
  rw [hd, if_neg hdne]
  simp only [hmassB, hmass, hpos]
  refine Vec3.ext' ?_ ?_ ?_ <;> simp [cexB]

theorem cex_velB (A : Body) (hmass : A.mass = 1)
    (hpos : A.position = ⟨DT * (DT * G), 0, 0⟩) :
    (updateOne 1 [A, cexB] 1).velocity
      = ⟨DT * (G * 1 * 1 / (1 - DT * (DT * G)) ^ 2
            * ((DT * (DT * G) - 1) / (1 - DT * (DT * G)))),
         0, 0⟩ := by
  simp only [updateOne, List.getD_cons_succ, List.getD_cons_zero, enumBodies, enumFrom,
    netForce, List.foldl, cex_gravity_BA A hmass hpos]
  refine Vec3.ext' ?_ ?_ ?_ <;> simp [cexB]

/-- C2 (counterexample): for the equal-mass, zero-velocity pair cexA, cexB
the total momentum is exactly zero before stepping, but after a single
update_physics step its x component is below -1e-5 — three orders of
magnitude above any floating tolerance for the velocities involved (each
individual momentum has magnitude about 5.8e-6), because the sequential
in-place update computes the reaction force from an already-moved body. -/
theorem C2_momentum_counterexample :
    totalMomentum [cexA, cexB] = 0 ∧
    (totalMomentum (update_physics [cexA, cexB] 1)).x < -1e-5 := by
  constructor
  · refine Vec3.ext' ?_ ?_ ?_ <;> simp [totalMomentum, cexA, cexB]
  · have hstep : update_physics [cexA, cexB] 1
        = [updateOne 1 [cexA, cexB] 0,
           updateOne 1 [updateOne 1 [cexA, cexB] 0, cexB] 1] := rfl
    have hδ : DT * (DT * G) = 0.49823382528 := by norm_num [DT, G]
    have hmA : (updateOne 1 [cexA, cexB] 0).mass = 1 := rfl
    have hvB := cex_velB (updateOne 1 [cexA, cexB] 0) hmA cex_posA
    have hmB : (updateOne 1 [updateOne 1 [cexA, cexB] 0, cexB] 1).mass = 1 := rfl
    rw [hstep]
    simp only [totalMomentum, List.foldl, cex_velA, hvB, hmA, hmB]
    simp only [Vec3.add_x, Vec3.smul_x, Vec3.zero_x]
    rw [show (1 - DT * (DT * G)) = 0.50176617472 by rw [sub_eq_iff_eq_add]; rw [hδ]; norm_num]
    norm_num [DT, G]

theorem Vec3.add_sub_cancel_left (a w : Vec3) : (a + w) - a = w := by
  refine Vec3.ext' ?_ ?_ ?_ <;> simp

theorem Vec3.sub_add_eq (p a w : Vec3) : p - (a + w) = (p - a) - w := by
  refine Vec3.ext' ?_ ?_ ?_ <;> simp <;> ring

theorem Vec3.smul_sub_smul (r t : ℝ) (v : Vec3) : r • v - t • v = (r - t) • v := by
  refine Vec3.ext' ?_ ?_ ?_ <;> simp <;> ring

theorem Vec3.smul_div_self {d : ℝ} (hd : d ≠ 0) (v : Vec3) : d • (v / d) = v := by
  refine Vec3.ext' ?_ ?_ ?_ <;> simp <;> field_simp

theorem chain_drop {R : Vec3 → Vec3 → Prop} :
    ∀ (n : ℕ) (l : List Vec3), l.Chain' R → (l.drop n).Chain' R
  | 0, _, h => h
  | _ + 1, [], _ => by simp
  | n + 1, _ :: l, h => chain_drop n l h.tail

theorem trimTrail_length (maxLen : ℕ) (trail : List Vec3) :
    (trimTrail maxLen trail).length ≤ maxLen := by
  simp only [trimTrail, List.length_drop]
  omega

theorem trimTrail_chain {R : Vec3 → Vec3 → Prop} (maxLen : ℕ) {trail : List Vec3}
    (h : trail.Chain' R) : (trimTrail maxLen trail).Chain' R :=
  chain_drop _ _ h

theorem trailLoop_spec {thr : ℝ} (hthr : 0 < thr) {dir pos : Vec3} (hdir : dir.norm = 1) :
    ∀ (n : ℕ) (trail : List Vec3) (last : Vec3) (rem : ℝ),
      trail.getLast? = some last →
      trail.Chain' (fun p q => (q - p).norm ≤ thr) →
      pos - last = rem • dir →
      0 ≤ rem →
      rem < ((n : ℝ) + 1) * thr →
      (trailLoop n trail last dir thr rem).1.Chain' (fun p q => (q - p).norm ≤ thr) ∧
      (trailLoop n trail last dir thr rem).1.getLast?
        = some (trailLoop n trail last dir thr rem).2.1 ∧
      pos - (trailLoop n trail last dir thr rem).2.1
        = (trailLoop n trail last dir thr rem).2.2 • dir ∧
      0 ≤ (trailLoop n trail last dir thr rem).2.2 ∧
      (trailLoop n trail last dir thr rem).2.2 < thr := by
  intro n
  induction n with
  | zero =>
    intro trail last rem h1 h2 h3 h4 h5
    refine ⟨h2, h1, h3, h4, ?_⟩
    simpa using h5
  | succ k ih =>
    intro trail last rem h1 h2 h3 h4 h5
    by_cases hc : thr ≤ rem
    · have hstep : (last + thr • dir) - last = thr • dir := Vec3.add_sub_cancel_left _ _
      have hlink : ((last + thr • dir) - last).norm ≤ thr := by
        rw [hstep, Vec3.norm_smul, hdir, mul_one, abs_of_pos hthr]
      have hchain : (trail ++ [last + thr • dir]).Chain' (fun p q => (q - p).norm ≤ thr) := by
        rw [List.chain'_append]
        refine ⟨h2, List.chain'_singleton _, ?_⟩
        intro x hx y hy
        rw [h1, Option.mem_some_iff] at hx
        simp only [List.head?_cons, Option.mem_some_iff] at hy
        rw [← hx, ← hy] at *
        exact hlink
      have hrel : pos - (last + thr • dir) = (rem - thr) • dir := by
        rw [Vec3.sub_add_eq, h3, Vec3.smul_sub_smul]
      have hlt : rem - thr < ((k : ℝ) + 1) * thr := by
        push_cast at h5
        linarith
      have := ih (trail ++ [last + thr • dir]) (last + thr • dir) (rem - thr)
        (List.getLast?_concat _) hchain hrel (by linarith) hlt
      simpa only [trailLoop, if_pos hc] using this
    · have hrem : rem < thr := not_le.mp hc
      simp only [trailLoop, if_neg hc]
      exact ⟨h2, h1, h3, h4, hrem⟩

theorem updateTrail_chain {thr : ℝ} (hthr : 0 < thr) (trail : List Vec3) (pos : Vec3)
    (h : trail.Chain' (fun p q => (q - p).norm ≤ thr)) :
    (updateTrail thr trail pos).Chain' (fun p q => (q - p).norm ≤ thr) := by
  rcases hlast : trail.getLast? with _ | last
  · have htrail : trail = [] := List.getLast?_eq_none_iff.mp hlast
    subst htrail
    simp [updateTrail]
  · simp only [updateTrail, hlast]
    by_cases hd : thr ≤ (pos - last).norm
    · have hne : pos - last ≠ 0 := by
        intro h0
        rw [h0] at hd
        have : (0 : Vec3).norm = 0 := Vec3.norm_eq_zero.mpr rfl
        linarith [hd.trans_eq this]
      have hdpos : 0 < (pos - last).norm := Vec3.norm_pos hne
      have hdir : ((pos - last) / (pos - last).norm).norm = 1 := Vec3.norm_sdiv_norm hne
      have hrel : pos - last
          = (pos - last).norm • ((pos - last) / (pos - last).norm) :=
        (Vec3.smul_div_self (ne_of_gt hdpos) _).symm
      have hfuel : (pos - last).norm
          < (((⌊(pos - last).norm / thr⌋₊ : ℕ) : ℝ) + 1) * thr := by
        have hlt := Nat.lt_floor_add_one ((pos - last).norm / thr)
        have := (div_lt_iff₀ hthr).mp hlt
        linarith
      obtain ⟨hc1, hc2, hc3, hc4, hc5⟩ :=
        trailLoop_spec hthr hdir ⌊(pos - last).norm / thr⌋₊ trail last
          ((pos - last).norm) hlast h hrel (Vec3.norm_nonneg _) hfuel
      by_cases hrem :
          0 < (trailLoop ⌊(pos - last).norm / thr⌋₊ trail last
            ((pos - last) / (pos - last).norm) thr ((pos - last).norm)).2.2
      · simp only [if_pos hd, if_pos hrem]
        rw [List.chain'_append]
        refine ⟨hc1, List.chain'_singleton _, ?_⟩
        intro x hx y hy
        rw [hc2, Option.mem_some_iff] at hx
        simp only [List.head?_cons, Option.mem_some_iff] at hy
        rw [← hx, ← hy]
        rw [hc3, Vec3.norm_smul, hdir, mul_one, abs_of_pos hrem]
        exact le_of_lt hc5
      · simp only [if_pos hd, if_neg hrem]
        exact hc1
    · simp only [if_neg hd]
      exact h

theorem updateTrail_no_move {thr : ℝ} {trail : List Vec3} {pos last : Vec3}
    (hlast : trail.getLast? = some last) (hmove : (pos - last).norm < thr) :
    updateTrail thr trail pos = trail := by
  simp only [updateTrail, hlast, if_neg (not_le.mpr hmove)]

theorem default_body_ok :
    0 < (default : Body).trail_distance_threshold ∧ TrailOK (default : Body) := by
  refine ⟨by show (0:ℝ) < 5e9; norm_num, ?_, ?_⟩
  · show ([] : List Vec3).length ≤ 100
    simp
  · show ([] : List Vec3).Chain' _
    simp

theorem updateOne_preserves (tm : ℝ) (l : List Body) (i : ℕ)
    (h : ∀ b ∈ l, 0 < b.trail_distance_threshold ∧ TrailOK b) :
    0 < (updateOne tm l i).trail_distance_threshold ∧ TrailOK (updateOne tm l i) := by
  have hbody : 0 < (l.getD i default).trail_distance_threshold ∧ TrailOK (l.getD i default) := by
    by_cases hi : i < l.length
    · refine h _ ?_
      rw [List.getD_eq_getElem l default hi]
      exact List.getElem_mem hi
    · rw [List.getD_eq_default l default (le_of_not_lt hi)]
      exact default_body_ok
  have hthr := hbody.1
  have hchain := hbody.2.2
  refine ⟨hthr, ?_, ?_⟩
  · exact trimTrail_length _ _
  · exact trimTrail_chain _ (updateTrail_chain hthr _ _ hchain)

theorem foldl_set_preserves (tm : ℝ) :
    ∀ (idxs : List ℕ) (l : List Body),
      (∀ b ∈ l, 0 < b.trail_distance_threshold ∧ TrailOK b) →
      ∀ b ∈ idxs.foldl (fun acc i => acc.set i (updateOne tm acc i)) l,
        0 < b.trail_distance_threshold ∧ TrailOK b := by
  intro idxs
  induction idxs with
  | nil => intro l h b hb; exact h b hb
  | cons i idxs ih =>
    intro l h
    refine ih _ ?_
    intro b hb
    rcases List.mem_or_eq_of_mem_set hb with hmem | rfl
    · exact h b hmem
    · exact updateOne_preserves tm l i h

theorem update_physics_preserves (bodies : List Body) (tm : ℝ)
    (h : ∀ b ∈ bodies, 0 < b.trail_distance_threshold ∧ TrailOK b) :
    ∀ b ∈ update_physics bodies tm, 0 < b.trail_distance_threshold ∧ TrailOK b :=
  foldl_set_preserves tm _ bodies h

theorem physicsSteps_preserves (bodies : List Body) (tm : ℝ)
    (h : ∀ b ∈ bodies, 0 < b.trail_distance_threshold ∧ TrailOK b) :
    ∀ n, ∀ b ∈ physicsSteps tm n bodies, 0 < b.trail_distance_threshold ∧ TrailOK b := by
  intro n
  induction n with
  | zero => exact h
  | succ k ih =>
    have : physicsSteps tm (k + 1) bodies = update_physics (physicsSteps tm k bodies) tm := by
      simp only [physicsSteps, Function.iterate_succ_apply']
    rw [this]
    exact update_physics_preserves _ tm ih

/-- C3: starting from bodies with positive trail thresholds and valid trails
(as produced by Body.__init__, whose trail is empty), after any number of
update_physics steps every body's trail has at most max_trail_length points
and consecutive stored points are at most trail_distance_threshold apart;
moreover the per-step trail update leaves the trail unchanged whenever the
body has moved less than the threshold since the last stored point. -/
theorem C3_trail_invariant (bodies : List Body) (tm : ℝ)
    (h : ∀ b ∈ bodies, 0 < b.trail_distance_threshold ∧ TrailOK b) :
    (∀ n, ∀ b ∈ physicsSteps tm n bodies, TrailOK b) ∧
    (∀ (thr : ℝ) (trail : List Vec3) (pos last : Vec3),
      trail.getLast? = some last → (pos - last).norm < thr →
      updateTrail thr trail pos = trail) := by
  refine ⟨fun n b hb => (physicsSteps_preserves bodies tm h n b hb).2, ?_⟩
  intro thr trail pos last hlast hmove
  exact updateTrail_no_move hlast hmove

/-- Witness for C3: the hypothesis holds for the concrete singleton system
[c1A] (fresh body, empty trail, threshold 5e9), and the invariant holds
after three steps there. -/
theorem C3_witness :
    (∀ b ∈ [c1A], 0 < b.trail_distance_threshold ∧ TrailOK b) ∧
    (∀ b ∈ physicsSteps 1 3 [c1A], TrailOK b) := by
  have h : ∀ b ∈ [c1A], 0 < b.trail_distance_threshold ∧ TrailOK b := by
    intro b hb
    rw [List.mem_singleton] at hb
    subst hb
    refine ⟨by norm_num [c1A], by norm_num [TrailOK, c1A], by simp [TrailOK, c1A]⟩
  exact ⟨h, (C3_trail_invariant [c1A] 1 h).1 3⟩

theorem Vec3.dot_comm (a b : Vec3) : a.dot b = b.dot a := by
  simp only [Vec3.dot]
  ring

theorem Vec3.div_one (v : Vec3) : v / (1 : ℝ) = v := by
  refine Vec3.ext' ?_ ?_ ?_ <;> simp

theorem Vec3.norm_eq_one_iff {v : Vec3} : v.norm = 1 ↔ v.dot v = 1 := by
  rw [Vec3.norm]
  exact Real.sqrt_eq_one

theorem normalize_of_unit {v : Vec3} (h : v.dot v = 1) : v / v.norm = v := by
  rw [show v.norm = 1 from Vec3.norm_eq_one_iff.mpr h, Vec3.div_one]

theorem cross_dot_left (a b : Vec3) : a.dot (Vec3.cross a b) = 0 := by
  simp only [Vec3.dot, Vec3.cross]
  ring

theorem cross_dot_right (a b : Vec3) : b.dot (Vec3.cross a b) = 0 := by
  simp only [Vec3.dot, Vec3.cross]
  ring

theorem cross_dot_self (a b : Vec3) :
    (Vec3.cross a b).dot (Vec3.cross a b) = a.dot a * b.dot b - a.dot b ^ 2 := by
  simp only [Vec3.dot, Vec3.cross]
  ring

theorem world_up_unit : Vec3.dot world_up world_up = 1 := by
  norm_num [world_up, Vec3.dot]

theorem rot_dot (v w axis : Vec3) (angle : ℝ) (ha : axis.dot axis = 1) :
    Vec3.dot (rotate_vector_around_axis v axis angle)
      (rotate_vector_around_axis w axis angle) = Vec3.dot v w := by
  have hsc : Real.sin angle ^ 2 + Real.cos angle ^ 2 = 1 := Real.sin_sq_add_cos_sq angle
  have ha' : axis.x * axis.x + axis.y * axis.y + axis.z * axis.z = 1 := ha
  simp only [rotate_vector_around_axis, Vec3.dot, Vec3.cross, Vec3.add_x, Vec3.add_y,
    Vec3.add_z, Vec3.smul_x, Vec3.smul_y, Vec3.smul_z]
  linear_combination
    ((v.x * w.x + v.y * w.y + v.z * w.z)
        - (axis.x * v.x + axis.y * v.y + axis.z * v.z)
          * (axis.x * w.x + axis.y * w.y + axis.z * w.z)) * hsc
    + (Real.sin angle ^ 2 * (v.x * w.x + v.y * w.y + v.z * w.z)
        + (1 - Real.cos angle) ^ 2 * (axis.x * v.x + axis.y * v.y + axis.z * v.z)
          * (axis.x * w.x + axis.y * w.y + axis.z * w.z)) * ha'

theorem rotate_yaw_orth {cam : Camera} (h : OrthFrame cam) (angle : ℝ) :
    OrthFrame (rotate_yaw cam angle) := by
  obtain ⟨hf, hr, _, hfr, _, _⟩ := h
  have hf' : cam.forward.dot cam.forward = 1 := Vec3.norm_eq_one_iff.mp hf
  have hr' : cam.right.dot cam.right = 1 := Vec3.norm_eq_one_iff.mp hr
  have hf1 : (rotate_vector_around_axis cam.forward world_up angle).dot
      (rotate_vector_around_axis cam.forward world_up angle) = 1 := by
    rw [rot_dot _ _ _ _ world_up_unit, hf']
  have hr1 : (rotate_vector_around_axis cam.right world_up angle).dot
      (rotate_vector_around_axis cam.right world_up angle) = 1 := by
    rw [rot_dot _ _ _ _ world_up_unit, hr']
  have hfr1 : (rotate_vector_around_axis cam.forward world_up angle).dot
      (rotate_vector_around_axis cam.right world_up angle) = 0 := by
    rw [rot_dot _ _ _ _ world_up_unit, hfr]
  have hu1 : (Vec3.cross (rotate_vector_around_axis cam.forward world_up angle)
      (rotate_vector_around_axis cam.right world_up angle)).dot
      (Vec3.cross (rotate_vector_around_axis cam.forward world_up angle)
        (rotate_vector_around_axis cam.right world_up angle)) = 1 := by
    rw [cross_dot_self, hf1, hr1, hfr1]
    norm_num
  simp only [OrthFrame, rotate_yaw]
  rw [normalize_of_unit hf1, normalize_of_unit hr1, normalize_of_unit hu1]
  exact ⟨Vec3.norm_eq_one_iff.mpr hf1, Vec3.norm_eq_one_iff.mpr hr1,
    Vec3.norm_eq_one_iff.mpr hu1, hfr1, cross_dot_left _ _, cross_dot_right _ _⟩

theorem rotate_pitch_orth {cam : Camera} (h : OrthFrame cam) (angle : ℝ) :
    OrthFrame (rotate_pitch cam angle) := by
  obtain ⟨hf, hr, hu, hfr, hfu, _⟩ := h
  have hf' : cam.forward.dot cam.forward = 1 := Vec3.norm_eq_one_iff.mp hf
  have hr' : cam.right.dot cam.right = 1 := Vec3.norm_eq_one_iff.mp hr
  have hu' : cam.up.dot cam.up = 1 := Vec3.norm_eq_one_iff.mp hu
  have haxis : cam.right / cam.right.norm = cam.right := normalize_of_unit hr'
  have hf1 : (rotate_vector_around_axis cam.forward cam.right angle).dot
      (rotate_vector_around_axis cam.forward cam.right angle) = 1 := by
    rw [rot_dot _ _ _ _ hr', hf']
  have hu1 : (rotate_vector_around_axis cam.up cam.right angle).dot
      (rotate_vector_around_axis cam.up cam.right angle) = 1 := by
    rw [rot_dot _ _ _ _ hr', hu']
  have huf1 : (rotate_vector_around_axis cam.up cam.right angle).dot
      (rotate_vector_around_axis cam.forward cam.right angle) = 0 := by
    rw [rot_dot _ _ _ _ hr', Vec3.dot_comm, hfu]
  have hr2 : (Vec3.cross (rotate_vector_around_axis cam.up cam.right angle)
      (rotate_vector_around_axis cam.forward cam.right angle)).dot
      (Vec3.cross (rotate_vector_around_axis cam.up cam.right angle)
        (rotate_vector_around_axis cam.forward cam.right angle)) = 1 := by
    rw [cross_dot_self, hf1, hu1, huf1]
    norm_num
  simp only [OrthFrame, rotate_pitch]
  rw [haxis, normalize_of_unit hf1, normalize_of_unit hu1, normalize_of_unit hr2]
  refine ⟨Vec3.norm_eq_one_iff.mpr hf1, Vec3.norm_eq_one_iff.mpr hr2,
    Vec3.norm_eq_one_iff.mpr hu1, cross_dot_right _ _, ?_, ?_⟩
  · rw [Vec3.dot_comm]
    exact huf1
  · rw [Vec3.dot_comm]
    exact cross_dot_left _ _

theorem rotate_roll_orth {cam : Camera} (h : OrthFrame cam) (angle : ℝ) :
    OrthFrame (rotate_roll cam angle) := by
  obtain ⟨hf, hr, hu, _, _, hru⟩ := h
  have hf' : cam.forward.dot cam.forward = 1 := Vec3.norm_eq_one_iff.mp hf
  have hr' : cam.right.dot cam.right = 1 := Vec3.norm_eq_one_iff.mp hr
  have hu' : cam.up.dot cam.up = 1 := Vec3.norm_eq_one_iff.mp hu
  have haxis : cam.forward / cam.forward.norm = cam.forward := normalize_of_unit hf'
  have hr1 : (rotate_vector_around_axis cam.right cam.forward angle).dot
      (rotate_vector_around_axis cam.right cam.forward angle) = 1 := by
    rw [rot_dot _ _ _ _ hf', hr']
  have hu1 : (rotate_vector_around_axis cam.up cam.forward angle).dot
      (rotate_vector_around_axis cam.up cam.forward angle) = 1 := by
    rw [rot_dot _ _ _ _ hf', hu']
  have hru1 : (rotate_vector_around_axis cam.right cam.forward angle).dot
      (rotate_vector_around_axis cam.up cam.forward angle) = 0 := by
    rw [rot_dot _ _ _ _ hf', hru]
  have hf2 : (Vec3.cross (rotate_vector_around_axis cam.right cam.forward angle)
      (rotate_vector_around_axis cam.up cam.forward angle)).dot
      (Vec3.cross (rotate_vector_around_axis cam.right cam.forward angle)
        (rotate_vector_around_axis cam.up cam.forward angle)) = 1 := by
    rw [cross_dot_self, hr1, hu1, hru1]
    norm_num
  simp only [OrthFrame, rotate_roll]
  rw [haxis, normalize_of_unit hr1, normalize_of_unit hu1, normalize_of_unit hf2]
  refine ⟨Vec3.norm_eq_one_iff.mpr hf2, Vec3.norm_eq_one_iff.mpr hr1,
    Vec3.norm_eq_one_iff.mpr hu1, ?_, ?_, hru1⟩
  · rw [Vec3.dot_comm]
    exact cross_dot_left _ _
  · rw [Vec3.dot_comm]
    exact cross_dot_right _ _

/-- C5: starting from a camera whose forward / right / up vectors form an
orthonormal right-handed basis, every sequence of rotate_yaw, rotate_pitch
and rotate_roll calls leaves the three vectors of norm one (exactly, hence
within 1e-6) and pairwise orthogonal. -/
theorem C5_rotation_orthonormal (cam : Camera) (ops : List RotOp)
    (h : OrthFrame cam) (_hhand : cam.up = Vec3.cross cam.forward cam.right) :
    OrthFrame (applyRots cam ops) := by
  clear _hhand
  induction ops generalizing cam with
  | nil => exact h
  | cons op ops ih =>
    have hstep : applyRots cam (op :: ops) = applyRots (applyRot cam op) ops := rfl
    rw [hstep]
    cases op with
    | yaw a => exact ih _ (rotate_yaw_orth h a)
    | pitch a => exact ih _ (rotate_pitch_orth h a)
    | roll a => exact ih _ (rotate_roll_orth h a)

/-- Witness for C5: the default camera frame is orthonormal and right-handed,
and the conclusion holds for it after a yaw, a pitch and a roll. -/
theorem C5_witness :
    (OrthFrame camC5 ∧ camC5.up = Vec3.cross camC5.forward camC5.right) ∧
    OrthFrame (applyRots camC5 [RotOp.yaw 1, RotOp.pitch 2, RotOp.roll 3]) := by
  have h : OrthFrame camC5 := by
    refine ⟨?_, ?_, ?_, ?_, ?_, ?_⟩ <;>
      first
        | (rw [Vec3.norm_eq_one_iff]; norm_num [camC5, Vec3.dot])
        | norm_num [camC5, Vec3.dot]
  have hhand : camC5.up = Vec3.cross camC5.forward camC5.right := by
    refine Vec3.ext' ?_ ?_ ?_ <;> norm_num [camC5, Vec3.cross]
  exact ⟨⟨h, hhand⟩, C5_rotation_orthonormal camC5 _ h hhand⟩

/-- C10: calling look_at with the camera's own position as target leaves the
whole camera state unchanged — the direction is the zero vector, its norm is
not positive, and the guarded branch never runs. -/
theorem C10_look_at_self (cam : Camera) : look_at cam cam.position = cam := by
  have hdir : cam.position - cam.position = (0 : Vec3) := Vec3.sub_self _
  have hnorm : (0 : Vec3).norm = 0 := Vec3.norm_eq_zero.mpr rfl
  simp only [look_at, hdir, hnorm, lt_self_iff_false, if_false]

/-- C8: in planetary mode, when the camera's distance to the body deviates
from the target distance radius + 1e9 by more than one percent of the
target, the distance-correction block moves the camera so that the new
signed distance error is exactly 0.9 times the old one — the absolute error
strictly decreases; when the deviation is within the one percent band the
camera position is left unchanged. -/
theorem C8_distance_correction (camPos bodyPos : Vec3) (radius : ℝ)
    (hrad : 0 ≤ radius) (hne : camPos ≠ bodyPos) :
    ((radius + 1e9) * 0.01 < |(bodyPos - camPos).norm - (radius + 1e9)| →
      (bodyPos - planetary_distance_correction camPos bodyPos radius).norm - (radius + 1e9)
          = 0.9 * ((bodyPos - camPos).norm - (radius + 1e9)) ∧
      |(bodyPos - planetary_distance_correction camPos bodyPos radius).norm - (radius + 1e9)|
          < |(bodyPos - camPos).norm - (radius + 1e9)|) ∧
    (¬ (radius + 1e9) * 0.01 < |(bodyPos - camPos).norm - (radius + 1e9)| →
      planetary_distance_correction camPos bodyPos radius = camPos) := by
  have hvne : bodyPos - camPos ≠ 0 := fun h0 => hne (Vec3.sub_eq_zero.mp h0).symm
  have hd : 0 < (bodyPos - camPos).norm := Vec3.norm_pos hvne
  have h1e9 : (0:ℝ) < 1e9 := by norm_num
  have ht : 0 < radius + 1e9 := by linarith
  constructor
  · intro hbig
    have hcorr : planetary_distance_correction camPos bodyPos radius
        = bodyPos -
            (((bodyPos - camPos).norm - ((bodyPos - camPos).norm - (radius + 1e9)) * 0.1)
              • ((bodyPos - camPos) / (bodyPos - camPos).norm)) := by
      simp only [planetary_distance_correction, if_pos hd, if_pos hbig]
    have hsub : bodyPos - planetary_distance_correction camPos bodyPos radius
        = ((bodyPos - camPos).norm - ((bodyPos - camPos).norm - (radius + 1e9)) * 0.1)
            • ((bodyPos - camPos) / (bodyPos - camPos).norm) := by
      rw [hcorr]
      refine Vec3.ext' ?_ ?_ ?_ <;> simp
    have hscalar :
        0 < (bodyPos - camPos).norm - ((bodyPos - camPos).norm - (radius + 1e9)) * 0.1 := by
      linarith
    have hnorm1 : ((bodyPos - camPos) / (bodyPos - camPos).norm).norm = 1 :=
      Vec3.norm_sdiv_norm hvne
    have hnewd : (bodyPos - planetary_distance_correction camPos bodyPos radius).norm
        = (bodyPos - camPos).norm - ((bodyPos - camPos).norm - (radius + 1e9)) * 0.1 := by
      rw [hsub, Vec3.norm_smul, hnorm1, mul_one, abs_of_pos hscalar]
    constructor
    · rw [hnewd]; ring
    · rw [hnewd]
      rw [show (bodyPos - camPos).norm - ((bodyPos - camPos).norm - (radius + 1e9)) * 0.1
            - (radius + 1e9)
          = 0.9 * ((bodyPos - camPos).norm - (radius + 1e9)) by ring]
      rw [abs_mul, abs_of_pos (by norm_num : (0:ℝ) < 0.9)]
      have hepos : 0 < |(bodyPos - camPos).norm - (radius + 1e9)| :=
        lt_trans (by positivity) hbig
      linarith
  · intro hsmall
    simp only [planetary_distance_correction, if_pos hd, if_neg hsmall]

/-- Witness for C8: at camera position (0, 0, 3e9), body at the origin with
radius 0, the hypotheses hold, the error band is exceeded, and the absolute
distance error strictly decreases. -/
theorem C8_witness :
    ((0:ℝ) ≤ 0 ∧ (⟨0, 0, 3e9⟩ : Vec3) ≠ (0 : Vec3) ∧
      ((0:ℝ) + 1e9) * 0.01 < |((0 : Vec3) - (⟨0, 0, 3e9⟩ : Vec3)).norm - ((0:ℝ) + 1e9)|) ∧
    |((0 : Vec3) - planetary_distance_correction ⟨0, 0, 3e9⟩ (0 : Vec3) 0).norm - ((0:ℝ) + 1e9)|
        < |((0 : Vec3) - (⟨0, 0, 3e9⟩ : Vec3)).norm - ((0:ℝ) + 1e9)| := by
  have hne : (⟨0, 0, 3e9⟩ : Vec3) ≠ (0 : Vec3) := by
    simp only [Ne, Vec3.ext_iff, Vec3.zero_x, Vec3.zero_y, Vec3.zero_z]
    norm_num
  have hnorm : ((0 : Vec3) - (⟨0, 0, 3e9⟩ : Vec3)).norm = 3e9 := by
    rw [Vec3.norm, show Vec3.dot ((0 : Vec3) - ⟨0, 0, 3e9⟩) ((0 : Vec3) - ⟨0, 0, 3e9⟩)
        = (3e9 : ℝ) * 3e9 by norm_num [Vec3.dot]]
    exact Real.sqrt_mul_self (by norm_num)
  have hbig : ((0:ℝ) + 1e9) * 0.01 < |((0 : Vec3) - (⟨0, 0, 3e9⟩ : Vec3)).norm - ((0:ℝ) + 1e9)| := by
    rw [hnorm]
    rw [show (3e9 : ℝ) - (0 + 1e9) = 2e9 by norm_num, abs_of_pos (by norm_num : (0:ℝ) < 2e9)]
    norm_num
  exact ⟨⟨le_refl 0, hne, hbig⟩,
    ((C8_distance_correction ⟨0, 0, 3e9⟩ 0 0 (le_refl 0) hne).1 hbig).2⟩

/-- C9 (amended): reloading a saved body list reproduces every body's name,
mass, radius, color and inclination exactly, but Body.__init__ applies the
inclination rotation again to the saved (already rotated) position and
velocity, so position and velocity are reproduced exactly when the
inclination is zero and are rotated once more about the x axis otherwise. -/
theorem C9_roundtrip_amended (bodies : List Body) :
    load_solar_system (save_solar_system bodies)
      = bodies.map (fun b =>
          { name := b.name, mass := b.mass,
            position := if b.inclination ≠ 0 then rotateIncl b.inclination b.position
                        else b.position,
            velocity := if b.inclination ≠ 0 then rotateIncl b.inclination b.velocity
                        else b.velocity,
            radius := b.radius, color := b.color, inclination := b.inclination,
            trail := [], max_trail_length := 100, trail_distance_threshold := 5e9 }) := by
  simp only [load_solar_system, save_solar_system, List.map_map]
  refine List.map_congr_left ?_
  intro b _
  have hrad : b.radius / 1e8 * 1e8 = b.radius := by
    field_simp
  have hinc : b.inclination * 180 / Real.pi * Real.pi / 180 = b.inclination := by
    field_simp [Real.pi_ne_zero]
  simp only [Function.comp_apply, mkBody, hrad, hinc]

theorem c9body_position : c9body.position = ⟨0, 0, 1⟩ := by
  have hne2 : Real.pi / 2 ≠ 0 := ne_of_gt (by positivity)
  simp only [c9body, mkBody, if_pos hne2]
  refine Vec3.ext' ?_ ?_ ?_ <;>
    simp [rotateIncl, Real.cos_pi_div_two, Real.sin_pi_div_two]

/-- C9 (counterexample): saving and reloading the single body c9body (raw
position (0, 1, 0), inclination pi/2, stored position (0, 0, 1)) yields a
body whose position is (0, -1, 0), not the saved (0, 0, 1): the round trip
does not reproduce the position. -/
theorem C9_roundtrip_counterexample :
    (load_solar_system (save_solar_system [c9body])).map Body.position
      ≠ [c9body.position] := by
  have hne2 : Real.pi / 2 ≠ 0 := ne_of_gt (by positivity)
  have hincl : c9body.inclination = Real.pi / 2 := rfl
  have hinc : c9body.inclination * 180 / Real.pi * Real.pi / 180 = Real.pi / 2 := by
    rw [hincl]
    field_simp [Real.pi_ne_zero]
    ring
  have hload : (load_solar_system (save_solar_system [c9body])).map Body.position
      = [rotateIncl (Real.pi / 2) c9body.position] := by
    simp only [load_solar_system, save_solar_system, List.map_cons, List.map_nil, hinc]
    simp only [mkBody, if_pos hne2]
  rw [hload, c9body_position]
  intro h
  have h2 := List.head_eq_of_cons_eq h
  rw [Vec3.ext_iff] at h2
  have h3 := h2.2.2
  simp [rotateIncl, Real.cos_pi_div_two, Real.sin_pi_div_two] at h3

theorem FVec3.isFinite_parts {v : FVec3} (h : v.isFinite = true) :
    (∃ a, v.x = FF.fin a) ∧ (∃ b, v.y = FF.fin b) ∧ (∃ c, v.z = FF.fin c) := by
  obtain ⟨vx, vy, vz⟩ := v
  cases vx <;> cases vy <;> cases vz <;>
    simp_all [FVec3.isFinite, FF.isFinite]

theorem FVec3.sub_isFinite {a b : FVec3} (ha : a.isFinite = true) (hb : b.isFinite = true) :
    (FVec3.sub a b).isFinite = true := by
  obtain ⟨⟨ax, hax⟩, ⟨ay, hay⟩, ⟨az, haz⟩⟩ := FVec3.isFinite_parts ha
  obtain ⟨⟨bx, hbx⟩, ⟨by0, hby⟩, ⟨bz, hbz⟩⟩ := FVec3.isFinite_parts hb
  simp [FVec3.sub, hax, hay, haz, hbx, hby, hbz, FF.sub, FF.neg, FF.add,
    FVec3.isFinite, FF.isFinite]

theorem fdot_fin {a b : FVec3} (ha : a.isFinite = true) (hb : b.isFinite = true) :
    ∃ r, FVec3.dot a b = FF.fin r := by
  obtain ⟨⟨ax, hax⟩, ⟨ay, hay⟩, ⟨az, haz⟩⟩ := FVec3.isFinite_parts ha
  obtain ⟨⟨bx, hbx⟩, ⟨by0, hby⟩, ⟨bz, hbz⟩⟩ := FVec3.isFinite_parts hb
  exact ⟨ax * bx + ay * by0 + az * bz,
    by simp [FVec3.dot, hax, hay, haz, hbx, hby, hbz, FF.mul, FF.add]⟩

theorem clampDepth_fin {f : FF} {z : ℝ} (h : clampDepth f = FF.fin z) : 1e8 ≤ z := by
  rcases f with x | _ | _ | _
  · by_cases hx : x ≤ 1e8
    · simp only [clampDepth, FF.le, decide_eq_true_eq, if_pos hx, FF.fin.injEq] at h
      rw [← h]
    · simp only [clampDepth, FF.le, decide_eq_true_eq, if_pos, if_neg hx, FF.fin.injEq] at h
      rw [← h]
      linarith [not_le.mp hx]
  · simp only [clampDepth, FF.le, Bool.false_eq_true, if_false] at h
    cases h
  · simp only [clampDepth, FF.le, if_true, FF.fin.injEq] at h
    rw [← h]
  · simp only [clampDepth, FF.le, Bool.false_eq_true, if_false] at h
    cases h

theorem project_ne_error (pos_3d : FVec3) (camera : FCamera) (width height : ℤ) :
    ∀ e, project_3d_to_2d pos_3d camera width height ≠ Except.error e := by
  intro e
  rcases hcz : clampDepth (camCoords pos_3d camera).2.2 with z | _ | _ | _ <;>
    rcases hcx : (camCoords pos_3d camera).1 with cx | _ | _ | _ <;>
      rcases hcy : (camCoords pos_3d camera).2.1 with cy | _ | _ | _ <;>
        simp only [project_3d_to_2d, hcz, hcx, hcy] <;>
          try simp
  by_cases hz : z = 0
  · simp [FF.div, hz]
  · simp [FF.div, hz, FF.mul, FF.add, FF.sub, FF.neg]

theorem project_nonfinite (pos_3d : FVec3) (camera : FCamera) (width height : ℤ)
    (h : ¬ ((camCoords pos_3d camera).1.isFinite = true) ∨
         ¬ ((camCoords pos_3d camera).2.1.isFinite = true) ∨
         ¬ ((clampDepth (camCoords pos_3d camera).2.2).isFinite = true)) :
    project_3d_to_2d pos_3d camera width height = Except.ok none := by
  rcases hcz : clampDepth (camCoords pos_3d camera).2.2 with z | _ | _ | _ <;>
    rcases hcx : (camCoords pos_3d camera).1 with cx | _ | _ | _ <;>
      rcases hcy : (camCoords pos_3d camera).2.1 with cy | _ | _ | _ <;>
        (simp only [project_3d_to_2d, hcz, hcx, hcy]; try rfl)
  rw [hcz, hcx, hcy] at h
  simp [FF.isFinite] at h

theorem project_of_fin (pos_3d : FVec3) (camera : FCamera) (width height : ℤ)
    {cx cy cz0 : ℝ}
    (hcx : (camCoords pos_3d camera).1 = FF.fin cx)
    (hcy : (camCoords pos_3d camera).2.1 = FF.fin cy)
    (hcz : (camCoords pos_3d camera).2.2 = FF.fin cz0) :
    project_3d_to_2d pos_3d camera width height
      = Except.ok (some (trunc ((width : ℝ) / 2 + cx * (500 / max cz0 1e8)),
                         trunc ((height : ℝ) / 2 - cy * (500 / max cz0 1e8)),
                         max cz0 1e8, 500 / max cz0 1e8)) := by
  by_cases hle : cz0 ≤ 1e8
  · have hclamp : clampDepth (camCoords pos_3d camera).2.2 = FF.fin 1e8 := by
      simp only [clampDepth, hcz, FF.le, decide_eq_true_eq, if_pos hle]
    have hmax : max cz0 1e8 = 1e8 := max_eq_right hle
    have hne : (1e8 : ℝ) ≠ 0 := by norm_num
    simp only [project_3d_to_2d, hclamp, hcx, hcy, FF.div, if_neg hne, FF.mul, FF.add,
      FF.sub, FF.neg, hmax]
    rw [show (height : ℝ) / 2 + -(cy * (500 / 1e8)) = (height : ℝ) / 2 - cy * (500 / 1e8)
      by ring]
  · have hclamp : clampDepth (camCoords pos_3d camera).2.2 = FF.fin cz0 := by
      simp only [clampDepth, hcz, FF.le, decide_eq_true_eq, if_neg hle]
    have hmax : max cz0 1e8 = cz0 := max_eq_left (le_of_lt (not_le.mp hle))
    have hne : cz0 ≠ 0 := by
      have := not_le.mp hle
      intro h0
      rw [h0] at this
      norm_num at this
    simp only [project_3d_to_2d, hclamp, hcx, hcy, FF.div, if_neg hne, FF.mul, FF.add,
      FF.sub, FF.neg, hmax]
    rw [show (height : ℝ) / 2 + -(cy * (500 / cz0)) = (height : ℝ) / 2 - cy * (500 / cz0)
      by ring]

theorem project_ok_some {pos_3d : FVec3} {camera : FCamera} {width height : ℤ}
    {sx sy : ℤ} {cz s : ℝ}
    (hp : project_3d_to_2d pos_3d camera width height = Except.ok (some (sx, sy, cz, s))) :
    1e8 ≤ cz := by
  rcases hcz : clampDepth (camCoords pos_3d camera).2.2 with z | _ | _ | _ <;>
    rcases hcx : (camCoords pos_3d camera).1 with cx | _ | _ | _ <;>
      rcases hcy : (camCoords pos_3d camera).2.1 with cy | _ | _ | _ <;>
        simp only [project_3d_to_2d, hcz, hcx, hcy] at hp <;>
          try cases hp
  · by_cases hz : z = 0
    · simp [FF.div, hz] at hp
    · simp only [FF.div, if_neg hz, FF.mul, FF.add, FF.sub, FF.neg, Except.ok.injEq,
        Option.some.injEq, Prod.mk.injEq] at hp
      obtain ⟨-, -, hzz, -⟩ := hp
      rw [← hzz]
      exact clampDepth_fin hcz

/-- C6: project_3d_to_2d never raises; whenever any of the checked
intermediate values — the camera-space coordinates (depth taken after the
clamp, exactly as the code checks it) or the scale — is non-finite it
returns the all-None sentinel; and on finite inputs it returns screen
coordinates, a depth equal to the camera-space depth clamped from below by
the positive epsilon 1e8, and the scale 500 divided by that depth. -/
theorem C6_projection (pos_3d : FVec3) (camera : FCamera) (width height : ℤ) :
    (∀ e, project_3d_to_2d pos_3d camera width height ≠ Except.error e) ∧
    ((¬ ((camCoords pos_3d camera).1.isFinite = true) ∨
      ¬ ((camCoords pos_3d camera).2.1.isFinite = true) ∨
      ¬ ((clampDepth (camCoords pos_3d camera).2.2).isFinite = true)) →
      project_3d_to_2d pos_3d camera width height = Except.ok none) ∧
    (pos_3d.isFinite = true → camera.position.isFinite = true →
     camera.right.isFinite = true → camera.up.isFinite = true →
     camera.forward.isFinite = true →
      ∃ (sx sy : ℤ) (cz s cz0 : ℝ),
        project_3d_to_2d pos_3d camera width height = Except.ok (some (sx, sy, cz, s)) ∧
        (camCoords pos_3d camera).2.2 = FF.fin cz0 ∧ cz = max cz0 1e8 ∧ 1e8 ≤ cz ∧
        s = 500 / cz) := by
  refine ⟨project_ne_error pos_3d camera width height,
    project_nonfinite pos_3d camera width height, ?_⟩
  intro hpos hcam hright hup hforward
  have hrel : (FVec3.sub pos_3d camera.position).isFinite = true :=
    FVec3.sub_isFinite hpos hcam
  obtain ⟨cx, hcx⟩ := fdot_fin hrel hright
  obtain ⟨cy, hcy⟩ := fdot_fin hrel hup
  obtain ⟨cz0, hcz⟩ := fdot_fin hrel hforward
  have hcx' : (camCoords pos_3d camera).1 = FF.fin cx := hcx
  have hcy' : (camCoords pos_3d camera).2.1 = FF.fin cy := hcy
  have hcz' : (camCoords pos_3d camera).2.2 = FF.fin cz0 := hcz
  refine ⟨trunc ((width : ℝ) / 2 + cx * (500 / max cz0 1e8)),
    trunc ((height : ℝ) / 2 - cy * (500 / max cz0 1e8)),
    max cz0 1e8, 500 / max cz0 1e8, cz0,
    project_of_fin pos_3d camera width height hcx' hcy' hcz', hcz', rfl,
    le_max_right _ _, rfl⟩

/-- Witness for C6: at the concrete finite point c6point and finite camera
c6camera the finiteness hypotheses hold and the projection returns a
clamped positive depth with its scale. -/
theorem C6_witness :
    (c6point.isFinite = true ∧ c6camera.position.isFinite = true ∧
     c6camera.right.isFinite = true ∧ c6camera.up.isFinite = true ∧
     c6camera.forward.isFinite = true) ∧
    (∃ (sx sy : ℤ) (cz s cz0 : ℝ),
      project_3d_to_2d c6point c6camera 1000 800 = Except.ok (some (sx, sy, cz, s)) ∧
      (camCoords c6point c6camera).2.2 = FF.fin cz0 ∧ cz = max cz0 1e8 ∧ 1e8 ≤ cz ∧
      s = 500 / cz) := by
  have h1 : c6point.isFinite = true := rfl
  have h2 : c6camera.position.isFinite = true := rfl
  have h3 : c6camera.right.isFinite = true := rfl
  have h4 : c6camera.up.isFinite = true := rfl
  have h5 : c6camera.forward.isFinite = true := rfl
  exact ⟨⟨h1, h2, h3, h4, h5⟩,
    (C6_projection c6point c6camera 1000 800).2.2 h1 h2 h3 h4 h5⟩

/-- C7: check_hover returns (without raising) the first body in list order
whose projection succeeded, whose projected center lies within the viewport
extended by the 100 pixel margin, and whose projected center is within
max(10, int(radius * scale)) pixels of the cursor — none when no body
qualifies.  The cam_z > 0 test of the code is redundant because the
projected depth is always at least the clamp 1e8. -/
theorem C7_check_hover_first (mouse_pos : ℤ × ℤ) (bodies : List Body) (camera : FCamera)
    (width height : ℤ) :
    check_hover mouse_pos bodies camera width height
      = Except.ok (bodies.find? (hover_hit mouse_pos camera width height)) := by
  induction bodies with
  | nil => rfl
  | cons body rest ih =>
    rcases hp : project_3d_to_2d (toFVec body.position) camera width height with e | o
    · exact absurd hp (project_ne_error _ _ _ _ e)
    · rcases o with _ | t
      · have hhit : hover_hit mouse_pos camera width height body = false := by
          simp [hover_hit, hp]
        rw [check_hover, hp]
        rw [List.find?_cons_of_neg _ (by rw [hhit]; exact Bool.false_ne_true), ← ih]
      · obtain ⟨px, py, cz, s⟩ := t
        have hz : (0 : ℝ) < cz := lt_of_lt_of_le (by norm_num) (project_ok_some hp)
        have hred : check_hover mouse_pos (body :: rest) camera width height
            = if (0 : ℝ) < cz ∧ -100 ≤ px ∧ px ≤ width + 100 ∧
                  -100 ≤ py ∧ py ≤ height + 100 then
                if Real.sqrt ((((mouse_pos.1 - px : ℤ) : ℝ)) ^ 2
                      + (((mouse_pos.2 - py : ℤ) : ℝ)) ^ 2)
                    ≤ ((max 10 (trunc (body.radius * s)) : ℤ) : ℝ) then
                  Except.ok (some body)
                else check_hover mouse_pos rest camera width height
              else check_hover mouse_pos rest camera width height := by
          rw [check_hover, hp]
        by_cases hbounds : -100 ≤ px ∧ px ≤ width + 100 ∧ -100 ≤ py ∧ py ≤ height + 100
        · by_cases hdist :
              Real.sqrt ((((mouse_pos.1 - px : ℤ) : ℝ)) ^ 2
                  + (((mouse_pos.2 - py : ℤ) : ℝ)) ^ 2)
                ≤ ((max 10 (trunc (body.radius * s)) : ℤ) : ℝ)
          · have hhit : hover_hit mouse_pos camera width height body = true := by
              simp only [hover_hit, hp, decide_eq_true_eq]
              exact ⟨hbounds, hdist⟩
            rw [hred, if_pos ⟨hz, hbounds.1, hbounds.2.1, hbounds.2.2.1, hbounds.2.2.2⟩,
              if_pos hdist, List.find?_cons_of_pos _ hhit]
          · have hhit : hover_hit mouse_pos camera width height body = false := by
              simp only [hover_hit, hp, decide_eq_false_iff_not]
              exact fun hcontra => hdist hcontra.2
            rw [hred, if_pos ⟨hz, hbounds.1, hbounds.2.1, hbounds.2.2.1, hbounds.2.2.2⟩,
              if_neg hdist, List.find?_cons_of_neg _ (by rw [hhit]; exact Bool.false_ne_true),
              ← ih]
        · have hhit : hover_hit mouse_pos camera width height body = false := by
            simp only [hover_hit, hp, decide_eq_false_iff_not]
            exact fun hcontra => hbounds hcontra.1
          have hcond : ¬ ((0 : ℝ) < cz ∧ -100 ≤ px ∧ px ≤ width + 100 ∧
              -100 ≤ py ∧ py ≤ height + 100) := by
            intro hcontra
            exact hbounds ⟨hcontra.2.1, hcontra.2.2.1, hcontra.2.2.2.1, hcontra.2.2.2.2⟩
          rw [hred, if_neg hcond,
            List.find?_cons_of_neg _ (by rw [hhit]; exact Bool.false_ne_true), ← ih]

end Gravity3D
